import Mathlib

/-!
Shallow embedding of the MagicPort company/vessel scraper
(`src/singel_company.py`): the token/route resolver of
`EnhancedMagicPortScraper.fetch_company_page`, the anti-bot fallback of
`fetch_fleet_data` / `try_alternative_approach`, the persistence layer
`DatabaseManager.insert_company_details` / `insert_fleet_vessels` /
`find_vessel_by_imo` / `extract_vessel_name`, and the orchestration guard of
`scrape_and_save_to_database`.

Python scalar values that flow through `dict.get` are modelled by `PVal`
(null / integer / string) and Python truthiness by `pyTruthy`; optional
strings (`None` or `str`) by `Option String`.  Stateful database code is
modelled by explicit state passing over lists of rows; the transactional
commit/rollback behaviour is modelled by an operation trace and a small
interpreter (`runTx`).
-/

namespace MagicPort

/-- A Python scalar as it appears in the scraped JSON rows: `None`, an
integer, or a string. -/
inductive PVal where
  | null : PVal
  | int (i : Int) : PVal
  | str (s : String) : PVal
deriving DecidableEq, Repr

/-- Python truthiness of a `PVal`: `None`, `0` and `""` are falsy. -/
def pyTruthy : PVal → Bool
  | .null => false
  | .int i => i != 0
  | .str s => s != ""

/-- Python truthiness of an optional string: `None` and `""` are falsy. -/
def pyTruthyS : Option String → Bool
  | none => false
  | some s => s != ""

/-- Python `str.strip()`: drop whitespace from both ends (computed on the
character list). -/
def pyStrip (s : String) : String :=
  ⟨((s.data.dropWhile Char.isWhitespace).reverse.dropWhile Char.isWhitespace).reverse⟩

/-- Python `str.lower()`: lowercase every character. -/
def pyLower (s : String) : String :=
  ⟨s.data.map Char.toLower⟩

/-- Is the first list a prefix of the second? -/
def charPrefix : List Char → List Char → Bool
  | [], _ => true
  | _ :: _, [] => false
  | a :: as, b :: bs => a == b && charPrefix as bs

/-- Does `pat` occur as a contiguous sublist? -/
def charInfix (pat : List Char) : List Char → Bool
  | [] => pat.isEmpty
  | c :: rest => charPrefix pat (c :: rest) || charInfix pat rest

/-- Python `pat in s` / CSS `[attr*=pat]`: case-sensitive substring test. -/
def strContains (s pat : String) : Bool :=
  charInfix pat.data s.data

/-! ## HTML fragments and `DatabaseManager.extract_vessel_name`

A vessel-name field arrives as an HTML fragment; we embed the parsed
fragment (BeautifulSoup parse tree) as a list of nodes. -/

/-- A node of a parsed HTML fragment: a text node or an element with a tag
and children. -/
inductive HtmlNode where
  | text (s : String) : HtmlNode
  | elem (tag : String) (children : List HtmlNode) : HtmlNode

mutual

/-- All text-node strings of a node, in document order (BeautifulSoup
`strings`). -/
def nodeStrings : HtmlNode → List String
  | .text s => [s]
  | .elem _ cs => fragStrings cs

/-- All text-node strings of a fragment, in document order. -/
def fragStrings : List HtmlNode → List String
  | [] => []
  | n :: ns => nodeStrings n ++ fragStrings ns

end

/-- BeautifulSoup `get_text(strip=True)` on a fragment: strip each text
piece, drop the ones that become empty, and concatenate. -/
def getTextStrip (frag : List HtmlNode) : String :=
  String.join (((fragStrings frag).map pyStrip).filter (fun s => s != ""))

mutual

/-- BeautifulSoup `find('span')` on a fragment: depth-first search for the
first element tagged `span`; returns its children. -/
def findSpanIn : List HtmlNode → Option (List HtmlNode)
  | [] => none
  | n :: rest =>
    match findSpanNode n with
    | some r => some r
    | none => findSpanIn rest

/-- `find('span')` on one node: the node itself if it is a span, else a
depth-first search of its children. -/
def findSpanNode : HtmlNode → Option (List HtmlNode)
  | .text _ => none
  | .elem t cs => if t = "span" then some cs else findSpanIn cs

end

/-- `DatabaseManager.extract_vessel_name` (src/singel_company.py:589-601):
`None` on a falsy input (the empty fragment), else the stripped text of the
first `span`, else the stripped text of the whole fragment. -/
def extract_vessel_name (frag : List HtmlNode) : Option String :=
  match frag with
  | [] => none
  | _ =>
    match findSpanIn frag with
    | some cs => some (getTextStrip cs)
    | none => some (getTextStrip frag)

/-! ## Fleet rows and the vessel store

`insert_fleet_vessels` consumes the raw JSON rows of the fleet endpoint;
each row is a dict read with `vessel.get(...)`.  The `vessel_name` field is
an HTML fragment (embedded parsed); `registered_owner` is an optional
string; `vessel_imo` is an arbitrary Python scalar (its truthiness is the
skip condition); the remaining fields are passed through verbatim. -/

/-- One raw fleet row, with the fields `insert_fleet_vessels` reads. -/
structure FleetRow where
  vessel_imo : PVal
  vessel_mmsi : PVal
  vessel_name : List HtmlNode
  vessel_type : PVal
  registered_owner : Option String
  registered_owner_company_imo : PVal
  registered_owner_company_country_slug : PVal
  registered_owner_total_distinct_vessels : PVal
  commercial_manager : PVal
  commercial_manager_company_country_slug : PVal
  commercial_manager_company_imo : PVal
  commercial_manager_company_name_slug : PVal
  commercial_manager_total_distinct_vessels : PVal
  core_vessel_types_key : PVal
  core_vessel_types_name : PVal
  dwt : PVal
  flag : PVal
  ism_manager : PVal
  ism_manager_company_country_slug : PVal
  ism_manager_company_imo : PVal
  ism_manager_company_name_slug : PVal
  ism_manager_total_distinct_vessels : PVal
  last_position_update : PVal

/-- The mutable attribute columns of `company_fleet_vessels` that both the
INSERT (src/singel_company.py:393-412) and the two UPDATE statements
(437-464, 495-521) write, besides `company_id` and `vessel_imo`. -/
structure VesselAttrs where
  vessel_mmsi : PVal
  vessel_name : Option String
  vessel_type : PVal
  registered_owner : Option String
  registered_owner_company_imo : PVal
  registered_owner_company_country_slug : PVal
  registered_owner_total_distinct_vessels : PVal
  commercial_manager : PVal
  commercial_manager_company_country_slug : PVal
  commercial_manager_company_imo : PVal
  commercial_manager_company_name_slug : PVal
  commercial_manager_total_distinct_vessels : PVal
  core_vessel_types_key : PVal
  core_vessel_types_name : PVal
  dwt : PVal
  flag : PVal
  ism_manager : PVal
  ism_manager_company_country_slug : PVal
  ism_manager_company_imo : PVal
  ism_manager_company_name_slug : PVal
  ism_manager_total_distinct_vessels : PVal
  last_position_update : PVal
deriving DecidableEq

/-- The attribute values a row writes: every field verbatim from the row,
except `vessel_name`, which is the cleaned name
`extract_vessel_name(vessel.get('vessel_name', ''))`. -/
def rowAttrs (r : FleetRow) : VesselAttrs where
  vessel_mmsi := r.vessel_mmsi
  vessel_name := extract_vessel_name r.vessel_name
  vessel_type := r.vessel_type
  registered_owner := r.registered_owner
  registered_owner_company_imo := r.registered_owner_company_imo
  registered_owner_company_country_slug := r.registered_owner_company_country_slug
  registered_owner_total_distinct_vessels := r.registered_owner_total_distinct_vessels
  commercial_manager := r.commercial_manager
  commercial_manager_company_country_slug := r.commercial_manager_company_country_slug
  commercial_manager_company_imo := r.commercial_manager_company_imo
  commercial_manager_company_name_slug := r.commercial_manager_company_name_slug
  commercial_manager_total_distinct_vessels := r.commercial_manager_total_distinct_vessels
  core_vessel_types_key := r.core_vessel_types_key
  core_vessel_types_name := r.core_vessel_types_name
  dwt := r.dwt
  flag := r.flag
  ism_manager := r.ism_manager
  ism_manager_company_country_slug := r.ism_manager_company_country_slug
  ism_manager_company_imo := r.ism_manager_company_imo
  ism_manager_company_name_slug := r.ism_manager_company_name_slug
  ism_manager_total_distinct_vessels := r.ism_manager_total_distinct_vessels
  last_position_update := r.last_position_update

/-- A stored `company_fleet_vessels` row: owning company, register number,
and the mutable attribute columns. -/
@[ext]
structure Vessel where
  company_id : Int
  vessel_imo : PVal
  attrs : VesselAttrs
deriving DecidableEq

/-- The vessel row created by the INSERT branch
(src/singel_company.py:549-577): owned by the current company. -/
def mkVessel (cid : Int) (r : FleetRow) : Vessel where
  company_id := cid
  vessel_imo := r.vessel_imo
  attrs := rowAttrs r

/-- `DatabaseManager.find_vessel_by_imo` (src/singel_company.py:361-376):
first stored row whose `vessel_imo` equals the given value, global across
companies. -/
def find_vessel_by_imo (s : List Vessel) (imo : PVal) : Option Vessel :=
  s.find? (fun v => decide (v.vessel_imo = imo))

/-- The ownership-match test of `insert_fleet_vessels`
(src/singel_company.py:434-435):
`registered_owner and current_company_name and
 registered_owner.lower().strip() == current_company_name.lower().strip()`. -/
def ownerMatch (cname : Option String) (r : FleetRow) : Bool :=
  match r.registered_owner, cname with
  | some own, some cn =>
    own != "" && cn != "" && pyStrip (pyLower own) == pyStrip (pyLower cn)
  | _, _ => false

/-- Effect of one UPDATE on one matching stored row: the match branch
(437-490) also reassigns `company_id` to the current company; the no-match
branch (495-546) keeps the stored `company_id`; both overwrite all mutable
attribute columns.  Neither touches `vessel_imo`. -/
def updOne (cid : Int) (cname : Option String) (r : FleetRow) (v : Vessel) : Vessel :=
  if ownerMatch cname r then ⟨cid, v.vessel_imo, rowAttrs r⟩
  else ⟨v.company_id, v.vessel_imo, rowAttrs r⟩

/-- One iteration of the `for vessel in vessels_data` loop of
`insert_fleet_vessels` (src/singel_company.py:417-577): skip rows with a
falsy `vessel_imo`; if a row with this IMO exists, run the UPDATE (which
hits every stored row with this `vessel_imo`); otherwise INSERT. -/
def processVesselRow (cid : Int) (cname : Option String)
    (s : List Vessel) (r : FleetRow) : List Vessel :=
  if pyTruthy r.vessel_imo then
    if (find_vessel_by_imo s r.vessel_imo).isSome then
      s.map (fun v => if v.vessel_imo = r.vessel_imo then updOne cid cname r v else v)
    else s ++ [mkVessel cid r]
  else s

/-- The whole vessel loop of `insert_fleet_vessels` on the vessel table:
fold the per-row step over the batch.  `cname` is
`get_company_name(company_id)`, constant during the loop because the loop
never writes `vessel_companies`. -/
def insert_fleet_vessels_rows (cid : Int) (cname : Option String)
    (rows : List FleetRow) (s : List Vessel) : List Vessel :=
  rows.foldl (processVesselRow cid cname) s

/-! ## Companies and the database -/

/-- A stored `vessel_companies` row, with the columns
`insert_company_details` writes. -/
structure CompanyRow where
  id : Int
  name : String
  country : Option String
  address : String
  total_dwt : Option String
  fleet_count : Option String
  website : Option String
deriving DecidableEq

/-- The whole relational store: the two tables and the company
AUTO_INCREMENT counter. -/
@[ext]
structure DB where
  companies : List CompanyRow
  nextCompanyId : Int
  vessels : List Vessel
deriving DecidableEq

/-- `DatabaseManager.get_company_name` (src/singel_company.py:347-359):
name of the company row with the given id. -/
def get_company_name (db : DB) (cid : Int) : Option String :=
  (db.companies.find? (fun c => decide (c.id = cid))).map (fun c => c.name)

/-- `DatabaseManager.insert_fleet_vessels` (src/singel_company.py:378-587)
as a state transformer on the store: it only writes the vessel table. -/
def insert_fleet_vessels (db : DB) (cid : Int) (rows : List FleetRow) : DB :=
  { db with
    vessels := insert_fleet_vessels_rows cid (get_company_name db cid) rows db.vessels }

/-- The extracted company info dict built by `extract_company_info`
(src/singel_company.py:711-718). -/
structure CompanyInfo where
  company_name : Option String
  address : Option String
  country : Option String
  total_vessels : Option String
  total_dwt : Option String
  website : Option String

/-- Python `x or d` on an optional string: the default replaces falsy
values (`None` and `""`). -/
def pyOrDefault (o : Option String) (d : String) : String :=
  match o with
  | some s => if s = "" then d else s
  | none => d

/-- `DatabaseManager.insert_company_details` (src/singel_company.py:282-345):
look up by name; if found, UPDATE every row with that name and return the
existing id; else INSERT with the next AUTO_INCREMENT id. -/
def insert_company_details (db : DB) (info : CompanyInfo) : DB × Int :=
  let company_name := pyOrDefault info.company_name "Unknown Company"
  let address := pyOrDefault info.address "Address not provided"
  match db.companies.find? (fun c => decide (c.name = company_name)) with
  | some existing =>
    ({ db with
       companies := db.companies.map (fun c =>
         if c.name = company_name then
           { c with
             name := company_name
             country := info.country
             address := address
             total_dwt := info.total_dwt
             fleet_count := info.total_vessels
             website := info.website }
         else c) },
     existing.id)
  | none =>
    ({ db with
       companies := db.companies ++
         [{ id := db.nextCompanyId
            name := company_name
            country := info.country
            address := address
            total_dwt := info.total_dwt
            fleet_count := info.total_vessels
            website := info.website }]
       nextCompanyId := db.nextCompanyId + 1 },
     db.nextCompanyId)

/-! ## Token discovery (`fetch_company_page`, src/singel_company.py:881-950)

The four strategies are embedded as the value each strategy would assign to
`csrf_token` if it fires: `none` means the strategy finds nothing (element
or pattern absent, or a `null` attribute, which leave `csrf_token`
unchanged); `some v` means it assigns the string `v` (possibly `""`).  A
later strategy runs only while `csrf_token` is still falsy. -/

/-- The token-relevant content of a fetched company page: what each of the
four discovery strategies would yield. -/
structure TokenPage where
  metaCsrf : Option String
  metaToken : Option String
  scriptToken : Option String
  inputToken : Option String

/-- Strategy `k` of token discovery, in source priority order: the
`csrf-token` meta tag, the `_token` meta tag, the inline-script pattern
search, the hidden input field. -/
def tokenStrategy (p : TokenPage) : Fin 4 → Option String
  | 0 => p.metaCsrf
  | 1 => p.metaToken
  | 2 => p.scriptToken
  | 3 => p.inputToken

/-- One guarded step of the chain: `if not csrf_token:` run the strategy,
which overwrites `csrf_token` only if it finds something. -/
def tokenStep (cur : Option String) (m : Option String) : Option String :=
  if pyTruthyS cur then cur
  else
    match m with
    | some v => some v
    | none => cur

/-- The token-resolution chain of `fetch_company_page`
(src/singel_company.py:884-950): method 1 unconditionally, methods 2-4
each guarded by `if not csrf_token`, and finally
`if not csrf_token: csrf_token = ""`. -/
def extract_csrf_token (p : TokenPage) : String :=
  let c1 : Option String := p.metaCsrf
  let c2 := tokenStep c1 p.metaToken
  let c3 := tokenStep c2 p.scriptToken
  let c4 := tokenStep c3 p.inputToken
  if pyTruthyS c4 then c4.getD "" else ""

/-! ## Route discovery (`fetch_company_page`, src/singel_company.py:953-998) -/

/-- Route discovery of `fetch_company_page`: the `[data-route*="fleet"]`
element if any (first data-route value containing `"fleet"`); else scan only
the first five data-route values (`routes[:5]`) for one whose lowercasing
contains `fleet`/`vessel`/`ship`; else the first available route; else a
route constructed from the page URL's `/owners-managers/{country}/{company}`
match (`urlMatch` is the result of that regex); `None` if everything is
falsy. -/
def extract_fleet_route (urlMatch : Option (String × String))
    (routes : List String) : Option String :=
  let fleet_route : Option String :=
    match routes.find? (fun r => strContains r "fleet") with
    | some r => some r
    | none =>
      let fr := (routes.take 5).find? (fun r =>
        strContains (pyLower r) "fleet" || strContains (pyLower r) "vessel" ||
        strContains (pyLower r) "ship")
      let fr := if pyTruthyS fr then fr
        else
          match routes with
          | r :: _ => some r
          | [] => fr
      if pyTruthyS fr then fr
      else
        match urlMatch with
        | some (country, company) =>
          some ("https://magicport.ai/owners-managers/" ++ country ++ "/" ++
            company ++ "/fleets")
        | none => fr
  if pyTruthyS fleet_route then fleet_route else none

/-- The orchestration guard of `scrape_and_save_to_database`
(src/singel_company.py:1148-1150): after `fetch_company_page` returns,
`if not csrf_token or not fleet_route: return False` — processing reaches
the fleet-fetch step only when both are truthy. -/
def scrape_proceeds_to_fleet_fetch (csrf_token : Option String)
    (fleet_route : Option String) : Bool :=
  pyTruthyS csrf_token && pyTruthyS fleet_route

/-! ## Fleet fetch and the anti-bot fallback
(`fetch_fleet_data` / `try_alternative_approach`,
src/singel_company.py:1004-1127) -/

/-- The decoded JSON of one fleet-endpoint response: HTTP status, the
optional `error` field, and the row collection under `data`. -/
structure FleetResponse where
  status : Nat
  error : Option String
  data : List FleetRow

/-- `try_alternative_approach` (src/singel_company.py:1077-1127): one
request with the minimal parameter set; `None` if the response again
carries the block indicator `'Attack !'`, or on a transport exception
(`none` input). -/
def try_alternative_approach (fb : Option FleetResponse) : Option FleetResponse :=
  match fb with
  | none => none
  | some resp => if resp.error = some "Attack !" then none else some resp

/-- `fetch_fleet_data` (src/singel_company.py:1004-1075), paired with the
number of fallback (`try_alternative_approach`) requests the call issues:
on HTTP 200 with the block indicator, or on a transport exception
(`primary = none`), exactly one fallback request is made; on any other
outcome, none. -/
def fetch_fleet_data (primary : Option FleetResponse)
    (fb : Option FleetResponse) : Option FleetResponse × Nat :=
  match primary with
  | none => (try_alternative_approach fb, 1)
  | some resp =>
    if resp.status = 200 then
      if resp.error = some "Attack !" then (try_alternative_approach fb, 1)
      else (some resp, 0)
    else (none, 0)

/-! ## Transactional traces (commit/rollback structure of the
persistence layer) -/

/-- One database operation the persistence layer performs on the
connection: a write, a `connection.commit()`, or a
`connection.rollback()`. -/
inductive TxOp where
  | companyUpsert (info : CompanyInfo) : TxOp
  | vesselWrite (cid : Int) (r : FleetRow) : TxOp
  | commit : TxOp
  | rollback : TxOp

/-- Connection state: the last committed store and the pending
(in-transaction) view.  Reads inside a transaction see the pending state
(read-your-own-writes). -/
structure TxState where
  committed : DB
  pending : DB

/-- Interpreter for one operation: writes touch only the pending state;
`commit` publishes it; `rollback` discards it. -/
def applyTxOp (t : TxState) : TxOp → TxState
  | .companyUpsert info => { t with pending := (insert_company_details t.pending info).1 }
  | .vesselWrite cid r =>
    { t with pending :=
      { t.pending with vessels :=
          processVesselRow cid (get_company_name t.pending cid) t.pending.vessels r } }
  | .commit => { t with committed := t.pending }
  | .rollback => { t with pending := t.committed }

/-- Run a trace of operations. -/
def runTx (t : TxState) (ops : List TxOp) : TxState :=
  ops.foldl applyTxOp t

/-- The operation trace of `insert_company_details`
(src/singel_company.py:282-345) against the connection state `db` it runs
on: the lookup by name (line 292) decides the branch.  The update branch
executes `return existing[0]` at line 319 *before* the
`self.connection.commit()` at line 338, so only the insert branch reaches
the commit (line 340, which handles the existing case after the commit, is
unreachable). -/
def insert_company_details_ops (db : DB) (info : CompanyInfo) : List TxOp :=
  if (db.companies.find? (fun c =>
      decide (c.name = pyOrDefault info.company_name "Unknown Company"))).isSome
  then [.companyUpsert info]
  else [.companyUpsert info, .commit]

/-- The operation trace of `insert_fleet_vessels`
(src/singel_company.py:378-587), with a per-row failure flag: rows with a
falsy `vessel_imo` perform no write; the first row whose write raises ends
the trace with the `self.connection.rollback()` of the except-handler
(line 586); if no write fails, the trace ends with the single
`self.connection.commit()` (line 579). -/
def insert_fleet_vessels_ops (cid : Int) : List (FleetRow × Bool) → List TxOp
  | [] => [.commit]
  | (r, f) :: rest =>
    if pyTruthy r.vessel_imo then
      if f then [.rollback]
      else .vesselWrite cid r :: insert_fleet_vessels_ops cid rest
    else insert_fleet_vessels_ops cid rest

/-- Is an operation a `commit`? -/
def isCommit : TxOp → Bool
  | .commit => true
  | _ => false

/-- Number of commits in a trace. -/
def commitCount (ops : List TxOp) : Nat :=
  (ops.filter isCommit).length

/-! ## Analysis helpers for the vessel loop

`processVesselRow`'s UPDATE branch acts pointwise on the stored rows; the
following definitions name that pointwise action and the sequence of rows a
batch appends, used to analyse `insert_fleet_vessels`. -/

/-- Does row `r` trigger an UPDATE of a stored row with register number
`i`?  (Truthy `vessel_imo` equal to `i`.) -/
def isRowFor (i : PVal) (r : FleetRow) : Bool :=
  pyTruthy r.vessel_imo && decide (r.vessel_imo = i)

/-- Pointwise effect of processing row `r` on one stored vessel: the UPDATE
hits it iff `r` is a row for its register number. -/
def step1 (cid : Int) (cname : Option String) (r : FleetRow) (v : Vessel) : Vessel :=
  if isRowFor v.vessel_imo r then updOne cid cname r v else v

/-- Pointwise effect of a whole batch on one stored vessel. -/
def rowApply (cid : Int) (cname : Option String) (rows : List FleetRow)
    (v : Vessel) : Vessel :=
  rows.foldl (fun w r => step1 cid cname r w) v

/-- Fold of unconditional per-row UPDATEs over one vessel (the rows that
match it). -/
def applyMs (cid : Int) (cname : Option String) (ms : List FleetRow)
    (v : Vessel) : Vessel :=
  ms.foldl (fun w r => updOne cid cname r w) v

/-- The register numbers present in a store. -/
def imoList (s : List Vessel) : List PVal :=
  s.map (fun v => v.vessel_imo)

/-- The rows a batch appends to a store whose register numbers are `E`:
each row with a truthy register number not yet present INSERTs a fresh
vessel, which then receives the remaining rows' UPDATEs. -/
def newTail (cid : Int) (cname : Option String) :
    List FleetRow → List PVal → List Vessel
  | [], _ => []
  | r :: rs, E =>
    if pyTruthy r.vessel_imo then
      if r.vessel_imo ∈ E then newTail cid cname rs E
      else rowApply cid cname rs (mkVessel cid r) :: newTail cid cname rs (r.vessel_imo :: E)
    else newTail cid cname rs E

/-! ## Concrete sample data for witnesses -/

/-- A concrete fleet row: the spec's end-to-end example vessel. -/
def sampleRow : FleetRow where
  vessel_imo := .int 9289984
  vessel_mmsi := .int 353136000
  vessel_name := [.elem "span" [.text "EVER GIVEN"]]
  vessel_type := .str "Container Ship"
  registered_owner := some "Neptune Navigators"
  registered_owner_company_imo := .null
  registered_owner_company_country_slug := .null
  registered_owner_total_distinct_vessels := .null
  commercial_manager := .null
  commercial_manager_company_country_slug := .null
  commercial_manager_company_imo := .null
  commercial_manager_company_name_slug := .null
  commercial_manager_total_distinct_vessels := .null
  core_vessel_types_key := .null
  core_vessel_types_name := .null
  dwt := .null
  flag := .str "PA"
  ism_manager := .null
  ism_manager_company_country_slug := .null
  ism_manager_company_imo := .null
  ism_manager_company_name_slug := .null
  ism_manager_total_distinct_vessels := .null
  last_position_update := .null

/-- `sampleRow` with a null register number. -/
def nullImoRow : FleetRow :=
  { sampleRow with vessel_imo := .null }

/-- `sampleRow` with register number `0`. -/
def zeroImoRow : FleetRow :=
  { sampleRow with vessel_imo := .int 0 }

/-- A concrete stored company row. -/
def sampleCompany : CompanyRow where
  id := 1
  name := "Neptune Navigators"
  country := some "Azerbaijan"
  address := "Baku"
  total_dwt := none
  fleet_count := some "12"
  website := none

/-- A concrete store: one company and one vessel owned by company `7`. -/
def sampleDB : DB where
  companies := [sampleCompany]
  nextCompanyId := 2
  vessels := [{ company_id := 7, vessel_imo := .int 9289984, attrs := rowAttrs sampleRow }]

/-- A concrete extracted company-info dict. -/
def sampleInfo : CompanyInfo where
  company_name := some "Neptune Navigators"
  address := some "Baku"
  country := some "Azerbaijan"
  total_vessels := some "12"
  total_dwt := none
  website := none

/-- A re-scrape of the sample company with an updated fleet count. -/
def rescrapeInfo : CompanyInfo where
  company_name := some "Neptune Navigators"
  address := some "Baku"
  country := some "Azerbaijan"
  total_vessels := some "13"
  total_dwt := none
  website := none

/-- An empty store. -/
def emptyDB : DB where
  companies := []
  nextCompanyId := 1
  vessels := []

/-! # Theorems -/

/-! ## Shared helper lemmas -/

theorem pyTruthyS_iff (o : Option String) :
    pyTruthyS o = true ↔ ∃ v, o = some v ∧ v ≠ "" := by
  cases o <;> simp [pyTruthyS]

theorem tokenStep_truthy (cur m : Option String) (hc : pyTruthyS cur = true) :
    tokenStep cur m = cur := by
  unfold tokenStep; rw [hc]; simp

theorem tokenStep_falsy_some (cur : Option String) (v : String)
    (hc : pyTruthyS cur = false) : tokenStep cur (some v) = some v := by
  unfold tokenStep; rw [hc]; simp

theorem tokenStep_falsy_falsy (cur m : Option String) (hc : pyTruthyS cur = false)
    (hm : pyTruthyS m = false) : pyTruthyS (tokenStep cur m) = false := by
  unfold tokenStep; rw [hc]; simp only [Bool.false_eq_true, if_false]
  cases m with
  | none => exact hc
  | some v => simpa [pyTruthyS] using hm

/-! ## C9 — vessel-name cleaning -/

/-- C9: for every vessel-name HTML fragment, the stored clean name is the
stripped text of the fragment's first nested span, or, with no span
present, the stripped flattened text of the whole fragment; a span holding
a single text piece yields that text trimmed of surrounding whitespace, and
in particular `<span>EVER GIVEN</span>` yields `"EVER GIVEN"`. -/
theorem extract_vessel_name_spec (frag : List HtmlNode) (hne : frag ≠ []) :
    (∀ cs, findSpanIn frag = some cs →
      extract_vessel_name frag = some (getTextStrip cs)) ∧
    (findSpanIn frag = none →
      extract_vessel_name frag = some (getTextStrip frag)) ∧
    (∀ s, extract_vessel_name [HtmlNode.elem "span" [HtmlNode.text s]] =
      some (pyStrip s)) ∧
    extract_vessel_name [HtmlNode.elem "span" [HtmlNode.text "EVER GIVEN"]] =
      some "EVER GIVEN" := by
  refine ⟨?_, ?_, ?_, ?_⟩
  · intro cs hcs
    match frag, hne with
    | n :: rest, _ => simp [extract_vessel_name, hcs]
  · intro hnone
    match frag, hne with
    | n :: rest, _ => simp [extract_vessel_name, hnone]
  · intro s
    have h1 : findSpanIn [HtmlNode.elem "span" [HtmlNode.text s]] =
        some [HtmlNode.text s] := by
      simp [findSpanIn, findSpanNode]
    have h2 : extract_vessel_name [HtmlNode.elem "span" [HtmlNode.text s]] =
        some (getTextStrip [HtmlNode.text s]) := by
      rw [extract_vessel_name.eq_def, h1]
    rw [h2]
    have h3 : getTextStrip [HtmlNode.text s] =
        String.join ((([s].map pyStrip)).filter (fun x => x != "")) := rfl
    rw [h3]
    by_cases h : pyStrip s = ""
    · simp [h, String.join]
    · have hb : (pyStrip s != "") = true := by simpa using h
      simp [hb, String.join]
  · decide

/-- Closed witness for `extract_vessel_name_spec`. -/
theorem extract_vessel_name_spec_witness :
    extract_vessel_name [HtmlNode.elem "span" [HtmlNode.text "EVER GIVEN"]] =
      some (getTextStrip [HtmlNode.text "EVER GIVEN"]) :=
  (extract_vessel_name_spec [HtmlNode.elem "span" [HtmlNode.text "EVER GIVEN"]]
    (by simp)).1 [HtmlNode.text "EVER GIVEN"] (by simp [findSpanIn, findSpanNode])

/-! ## C2 — the empty-token degraded mode is killed by the orchestrator -/

/-- C2 (code behaviour at the failing input): when all four token
strategies fail, `fetch_company_page` degrades to the empty token `""`
("continuing anyway"), but the orchestrator guard of
`scrape_and_save_to_database` (line 1149, `if not csrf_token or not
fleet_route: return False`) treats the empty string as falsy and aborts the
company before the fleet-fetch step, even though a fleet route was
resolved. -/
theorem empty_token_aborts_company :
    extract_csrf_token ⟨none, none, none, none⟩ = "" ∧
    scrape_proceeds_to_fleet_fetch
      (some (extract_csrf_token ⟨none, none, none, none⟩))
      (some "https://magicport.ai/owners-managers/azerbaijan/neptune-navigators-llc/fleets")
      = false :=
  ⟨rfl, rfl⟩

/-! ## C3 — token-discovery priority order -/

/-- C3: for every page and every strategy index `k` (csrf-token meta tag,
`_token` meta tag, inline-script pattern, hidden input), if strategy `k`
yields a (truthy) token and strategies before `k` do not, the resolver
returns exactly strategy `k`'s value; moreover the result depends only on
strategies up to `k`, so later strategies are never consulted. -/
theorem csrf_token_priority (p : TokenPage) (k : Fin 4)
    (h1 : pyTruthyS (tokenStrategy p k) = true)
    (h2 : ∀ j : Fin 4, j < k → pyTruthyS (tokenStrategy p j) = false) :
    extract_csrf_token p = (tokenStrategy p k).getD "" ∧
    (∀ q : TokenPage, (∀ j : Fin 4, j ≤ k → tokenStrategy q j = tokenStrategy p j) →
      extract_csrf_token q = extract_csrf_token p) := by
  fin_cases k
  · simp only [tokenStrategy] at h1
    obtain ⟨v, hv, hvne⟩ := (pyTruthyS_iff _).mp h1
    have htr : pyTruthyS (some v) = true := by simpa [pyTruthyS] using hvne
    have hstep : ∀ m, tokenStep (some v) m = some v := fun m =>
      tokenStep_truthy _ m htr
    constructor
    · simp [extract_csrf_token, tokenStrategy, hv, hstep, htr]
    · intro q hq
      have h0 : q.metaCsrf = p.metaCsrf := hq 0 (by decide)
      simp [extract_csrf_token, h0, hv, hstep, htr]
  · simp only [tokenStrategy] at h1
    have hc0 : pyTruthyS p.metaCsrf = false := h2 0 (by decide)
    obtain ⟨v, hv, hvne⟩ := (pyTruthyS_iff _).mp h1
    have htr : pyTruthyS (some v) = true := by simpa [pyTruthyS] using hvne
    have hstep : ∀ m, tokenStep (some v) m = some v := fun m =>
      tokenStep_truthy _ m htr
    have hfs : tokenStep p.metaCsrf (some v) = some v :=
      tokenStep_falsy_some _ _ hc0
    constructor
    · simp [extract_csrf_token, tokenStrategy, hv, hfs, hstep, htr]
    · intro q hq
      have h0 : q.metaCsrf = p.metaCsrf := hq 0 (by decide)
      have h1' : q.metaToken = p.metaToken := hq 1 (by decide)
      simp [extract_csrf_token, h0, h1', hv, hfs, hstep, htr]
  · simp only [tokenStrategy] at h1
    have hc0 : pyTruthyS p.metaCsrf = false := h2 0 (by decide)
    have hc1 : pyTruthyS p.metaToken = false := h2 1 (by decide)
    have hf2 : pyTruthyS (tokenStep p.metaCsrf p.metaToken) = false :=
      tokenStep_falsy_falsy _ _ hc0 hc1
    obtain ⟨v, hv, hvne⟩ := (pyTruthyS_iff _).mp h1
    have htr : pyTruthyS (some v) = true := by simpa [pyTruthyS] using hvne
    have hstep : ∀ m, tokenStep (some v) m = some v := fun m =>
      tokenStep_truthy _ m htr
    have hfs : tokenStep (tokenStep p.metaCsrf p.metaToken) (some v) = some v :=
      tokenStep_falsy_some _ _ hf2
    constructor
    · simp [extract_csrf_token, tokenStrategy, hv, hfs, hstep, htr]
    · intro q hq
      have h0 : q.metaCsrf = p.metaCsrf := hq 0 (by decide)
      have h1' : q.metaToken = p.metaToken := hq 1 (by decide)
      have h2' : q.scriptToken = p.scriptToken := hq 2 (by decide)
      simp [extract_csrf_token, h0, h1', h2', hv, hfs, hstep, htr]
  · simp only [tokenStrategy] at h1
    have hc0 : pyTruthyS p.metaCsrf = false := h2 0 (by decide)
    have hc1 : pyTruthyS p.metaToken = false := h2 1 (by decide)
    have hc2 : pyTruthyS p.scriptToken = false := h2 2 (by decide)
    have hf2 : pyTruthyS (tokenStep p.metaCsrf p.metaToken) = false :=
      tokenStep_falsy_falsy _ _ hc0 hc1
    have hf3 : pyTruthyS (tokenStep (tokenStep p.metaCsrf p.metaToken) p.scriptToken) = false :=
      tokenStep_falsy_falsy _ _ hf2 hc2
    obtain ⟨v, hv, hvne⟩ := (pyTruthyS_iff _).mp h1
    have htr : pyTruthyS (some v) = true := by simpa [pyTruthyS] using hvne
    have hfs : tokenStep (tokenStep (tokenStep p.metaCsrf p.metaToken) p.scriptToken)
        (some v) = some v :=
      tokenStep_falsy_some _ _ hf3
    constructor
    · simp [extract_csrf_token, tokenStrategy, hv, hfs, htr]
    · intro q hq
      have h0 : q.metaCsrf = p.metaCsrf := hq 0 (by decide)
      have h1' : q.metaToken = p.metaToken := hq 1 (by decide)
      have h2' : q.scriptToken = p.scriptToken := hq 2 (by decide)
      have h3' : q.inputToken = p.inputToken := hq 3 (by decide)
      simp [extract_csrf_token, h0, h1', h2', h3', hv, hfs, htr]

/-- Closed witness for `csrf_token_priority`: strategy 3 (inline script)
fires after the meta-tag strategies fail. -/
theorem csrf_token_priority_witness :
    extract_csrf_token ⟨none, some "", some "TOK42", none⟩ =
      (tokenStrategy ⟨none, some "", some "TOK42", none⟩ 2).getD "" :=
  (csrf_token_priority ⟨none, some "", some "TOK42", none⟩ 2 (by decide)
    (by decide)).1

/-! ## C4 — route-discovery preference -/

/-- C4 counterexample: a page with zero fleet-tagged data-route elements
and one data-route value containing `"vessel"`, but at position 6 — the
generic enumeration scans only `routes[:5]`, so the resolver falls back to
the unrelated first available route `"a"` instead of `"my-vessel"`. -/
theorem fleet_route_counterexample :
    (["a", "b", "c", "d", "e", "my-vessel"].find?
      (fun r => strContains r "fleet") = none) ∧
    strContains (pyLower "my-vessel") "vessel" = true ∧
    extract_fleet_route none ["a", "b", "c", "d", "e", "my-vessel"] = some "a" ∧
    some "a" ≠ some "my-vessel" := by
  refine ⟨by decide, by decide, by decide, by decide⟩

/-- C4 amended: the generic enumeration considers only the first five
data-route values; when no value contains `"fleet"` (case-sensitive) and
the scan of the first five finds a value whose lowercasing contains one of
`fleet`/`vessel`/`ship`, the resolver returns exactly that first match —
in particular a vessel-tagged route among the first five is preferred over
an unrelated first-available route. -/
theorem fleet_route_amended (urlMatch : Option (String × String))
    (routes : List String) (r : String)
    (h1 : routes.find? (fun x => strContains x "fleet") = none)
    (h2 : (routes.take 5).find? (fun x =>
      strContains (pyLower x) "fleet" || strContains (pyLower x) "vessel" ||
      strContains (pyLower x) "ship") = some r) :
    extract_fleet_route urlMatch routes = some r := by
  have hp := List.find?_some h2
  have hrne : r ≠ "" := by
    intro h
    subst h
    revert hp
    decide
  have htr : pyTruthyS (some r) = true := by simpa [pyTruthyS] using hrne
  simp [extract_fleet_route, h1, h2, htr]

/-- Closed witness for `fleet_route_amended`: a vessel-tagged route in the
first five is selected over the unrelated first route. -/
theorem fleet_route_amended_witness :
    extract_fleet_route none ["a", "b", "my-vessel", "d"] = some "my-vessel" :=
  fleet_route_amended none ["a", "b", "my-vessel", "d"] "my-vessel"
    (by decide) (by decide)

/-! ## C5 — anti-bot fallback bound -/

/-- C5: when the primary fleet response is HTTP 200 and carries the block
indicator `'Attack !'`, `fetch_fleet_data` issues exactly one fallback
request with the minimal parameter set (never zero, never more than one);
and if the fallback response also carries the block indicator, the fleet
fetch returns `None` with no further attempts. -/
theorem anti_bot_fallback (resp : FleetResponse) (fb : Option FleetResponse)
    (hs : resp.status = 200) (hb : resp.error = some "Attack !") :
    (fetch_fleet_data (some resp) fb).2 = 1 ∧
    (∀ fbr, fb = some fbr → fbr.error = some "Attack !" →
      (fetch_fleet_data (some resp) fb).1 = none) := by
  constructor
  · simp [fetch_fleet_data, hs, hb]
  · intro fbr hfb hb2
    subst hfb
    simp [fetch_fleet_data, hs, hb, try_alternative_approach, hb2]

/-- Closed witness for `anti_bot_fallback`: a blocked primary response and
a blocked fallback response. -/
theorem anti_bot_fallback_witness :
    (fetch_fleet_data (some ⟨200, some "Attack !", []⟩)
      (some ⟨200, some "Attack !", []⟩)).2 = 1 ∧
    (fetch_fleet_data (some ⟨200, some "Attack !", []⟩)
      (some ⟨200, some "Attack !", []⟩)).1 = none := by
  have h := anti_bot_fallback ⟨200, some "Attack !", []⟩
    (some ⟨200, some "Attack !", []⟩) rfl rfl
  exact ⟨h.1, h.2 ⟨200, some "Attack !", []⟩ rfl rfl⟩

/-! ## C8 / C10 — skipped rows -/

/-- C8: a fleet row whose register number is null/absent is skipped — its
processing performs no insert and no update, and dropping it from a batch
leaves the processing of the remaining rows (and the resulting store)
unchanged. -/
theorem null_imo_row_skipped (cid : Int) (cname : Option String)
    (rows1 rows2 : List FleetRow) (r : FleetRow) (s : List Vessel)
    (h : r.vessel_imo = PVal.null) :
    processVesselRow cid cname s r = s ∧
    insert_fleet_vessels_rows cid cname (rows1 ++ r :: rows2) s =
      insert_fleet_vessels_rows cid cname (rows1 ++ rows2) s := by
  have hstep : ∀ t, processVesselRow cid cname t r = t := by
    intro t
    simp [processVesselRow, h, pyTruthy]
  refine ⟨hstep s, ?_⟩
  simp only [insert_fleet_vessels_rows, List.foldl_append, List.foldl_cons]
  rw [hstep]

/-- Closed witness for `null_imo_row_skipped`: a single null-IMO row leaves
the empty store empty. -/
theorem null_imo_row_skipped_witness :
    insert_fleet_vessels_rows 1 (some "Neptune Navigators") [nullImoRow] [] = [] :=
  (null_imo_row_skipped 1 (some "Neptune Navigators") [] [] nullImoRow [] rfl).2

/-- C10: the skip condition `if not vessel_imo` is a truthiness test, so a
register number of `0`, `""`, or null is treated identically to a missing
one — the row is skipped with no insert and no update; consequently, if no
stored vessel has register number `0`, none ever does after any batch. -/
theorem falsy_imo_row_skipped (cid : Int) (cname : Option String)
    (s : List Vessel) (r : FleetRow) (rows : List FleetRow)
    (h : r.vessel_imo = PVal.int 0 ∨ r.vessel_imo = PVal.str "" ∨
      r.vessel_imo = PVal.null) :
    processVesselRow cid cname s r = s ∧
    ((∀ v ∈ s, v.vessel_imo ≠ PVal.int 0) →
      ∀ v ∈ insert_fleet_vessels_rows cid cname rows s, v.vessel_imo ≠ PVal.int 0) := by
  have hf : pyTruthy r.vessel_imo = false := by
    rcases h with h | h | h <;> simp [h, pyTruthy]
  constructor
  · simp [processVesselRow, hf]
  · intro hs
    have hpres : ∀ (t : List Vessel) (r' : FleetRow),
        (∀ v ∈ t, v.vessel_imo ≠ PVal.int 0) →
        ∀ v ∈ processVesselRow cid cname t r', v.vessel_imo ≠ PVal.int 0 := by
      intro t r' ht v hv
      by_cases htr : pyTruthy r'.vessel_imo = true
      · simp only [processVesselRow, htr, if_true] at hv
        by_cases hex : (find_vessel_by_imo t r'.vessel_imo).isSome = true
        · rw [if_pos hex] at hv
          obtain ⟨w, hw, hwv⟩ := List.mem_map.mp hv
          subst hwv
          by_cases heq : w.vessel_imo = r'.vessel_imo
          · simp only [heq, if_true]
            unfold updOne
            split <;> simpa [heq] using ht w hw
          · simpa [heq] using ht w hw
        · rw [if_neg hex] at hv
          rcases List.mem_append.mp hv with hv | hv
          · exact ht v hv
          · have hv' : v = mkVessel cid r' := by simpa using hv
            subst hv'
            show (mkVessel cid r').vessel_imo ≠ PVal.int 0
            intro hzero
            rw [mkVessel] at hzero
            simp only at hzero
            rw [hzero] at htr
            simp [pyTruthy] at htr
      · have : processVesselRow cid cname t r' = t := by
          simp [processVesselRow, htr]
        rw [this] at hv
        exact ht v hv
    clear hf h
    induction rows generalizing s with
    | nil => simpa [insert_fleet_vessels_rows] using hs
    | cons r' rs ih =>
      intro v hv
      simp only [insert_fleet_vessels_rows, List.foldl_cons] at hv
      exact ih (processVesselRow cid cname s r') (hpres s r' hs) v hv

/-- Closed witness for `falsy_imo_row_skipped`: a row with register number
`0` leaves the empty store empty, and the no-zero-IMO invariant holds. -/
theorem falsy_imo_row_skipped_witness :
    processVesselRow 1 (some "Neptune Navigators") [] zeroImoRow = [] ∧
    (∀ v ∈ insert_fleet_vessels_rows 1 (some "Neptune Navigators") [zeroImoRow] ([] : List Vessel),
      v.vessel_imo ≠ PVal.int 0) := by
  have h := falsy_imo_row_skipped 1 (some "Neptune Navigators") [] zeroImoRow
    [zeroImoRow] (Or.inl rfl)
  exact ⟨h.1, h.2 (by intro v hv; cases hv)⟩

/-! ## C1 — ownership-reassignment law -/

theorem updOne_vessel_imo (cid : Int) (cname : Option String) (r : FleetRow)
    (v : Vessel) : (updOne cid cname r v).vessel_imo = v.vessel_imo := by
  unfold updOne
  split <;> rfl

theorem find_vessel_by_imo_map (s : List Vessel) (i : PVal) (g : Vessel → Vessel)
    (hg : ∀ v, (g v).vessel_imo = v.vessel_imo) :
    find_vessel_by_imo (s.map g) i = (find_vessel_by_imo s i).map g := by
  induction s with
  | nil => rfl
  | cons v vs ih =>
    simp only [find_vessel_by_imo, List.map_cons, List.find?_cons] at ih ⊢
    rw [hg v]
    by_cases h : v.vessel_imo = i
    · simp [h]
    · simpa [h] using ih

theorem find_vessel_by_imo_some (s : List Vessel) (i : PVal) (v : Vessel)
    (h : find_vessel_by_imo s i = some v) : v.vessel_imo = i := by
  have := List.find?_some h
  simpa using this

/-- C1: take a store holding a vessel with the incoming row's register
number, owned by company `A = v0.company_id`, processed by
`insert_fleet_vessels` under current company `B = cid` whose stored name is
`bname` (not entirely whitespace).  If the row's claimed registered-owner
text equals `bname` after lowercasing and stripping, the vessel ends up
owned by `cid` with all mutable attribute fields overwritten by the row's
values; if it differs under that comparison, the attribute fields are still
overwritten but the owning company remains `A`. -/
theorem ownership_reassignment (db : DB) (cid : Int) (r : FleetRow)
    (v0 : Vessel) (bname own : String)
    (hfind : find_vessel_by_imo db.vessels r.vessel_imo = some v0)
    (hname : get_company_name db cid = some bname)
    (hbn : pyStrip (pyLower bname) ≠ "")
    (himo : pyTruthy r.vessel_imo = true)
    (hown : r.registered_owner = some own) :
    (pyStrip (pyLower own) = pyStrip (pyLower bname) →
      find_vessel_by_imo (insert_fleet_vessels db cid [r]).vessels r.vessel_imo =
        some ⟨cid, r.vessel_imo, rowAttrs r⟩) ∧
    (pyStrip (pyLower own) ≠ pyStrip (pyLower bname) →
      find_vessel_by_imo (insert_fleet_vessels db cid [r]).vessels r.vessel_imo =
        some ⟨v0.company_id, r.vessel_imo, rowAttrs r⟩) := by
  have hvs : (insert_fleet_vessels db cid [r]).vessels =
      processVesselRow cid (some bname) db.vessels r := by
    simp [insert_fleet_vessels, insert_fleet_vessels_rows, hname]
  have hsome : (find_vessel_by_imo db.vessels r.vessel_imo).isSome = true := by
    rw [hfind]; rfl
  have hproc : processVesselRow cid (some bname) db.vessels r =
      db.vessels.map (fun v =>
        if v.vessel_imo = r.vessel_imo then updOne cid (some bname) r v else v) := by
    simp [processVesselRow, himo, hsome]
  have hg : ∀ v : Vessel,
      ((fun v => if v.vessel_imo = r.vessel_imo then updOne cid (some bname) r v else v) v).vessel_imo
        = v.vessel_imo := by
    intro v
    by_cases h : v.vessel_imo = r.vessel_imo
    · simp [h, updOne_vessel_imo]
    · simp [h]
  have hv0 : v0.vessel_imo = r.vessel_imo := find_vessel_by_imo_some _ _ _ hfind
  have hres : find_vessel_by_imo (insert_fleet_vessels db cid [r]).vessels r.vessel_imo =
      some (updOne cid (some bname) r v0) := by
    rw [hvs, hproc, find_vessel_by_imo_map _ _ _ hg, hfind]
    simp [hv0]
  constructor
  · intro heq
    have hoe : own ≠ "" := by
      intro h
      apply hbn
      rw [← heq, h]
      rfl
    have hbe : bname ≠ "" := by
      intro h
      apply hbn
      rw [h]
      rfl
    have hmatch : ownerMatch (some bname) r = true := by
      simp [ownerMatch, hown, hoe, hbe, heq]
    rw [hres]
    unfold updOne
    rw [hmatch]
    simp [hv0]
  · intro hne
    have hmatch : ownerMatch (some bname) r = false := by
      simp only [ownerMatch, hown]
      have : (pyStrip (pyLower own) == pyStrip (pyLower bname)) = false := by
        simpa using hne
      rw [this]
      simp
    rw [hres]
    unfold updOne
    rw [hmatch]
    simp [hv0]

/-- Closed witness for `ownership_reassignment`: the sample store's vessel
(owned by company 7) is reassigned to company 1 because the row's claimed
owner matches company 1's stored name. -/
theorem ownership_reassignment_witness :
    find_vessel_by_imo (insert_fleet_vessels sampleDB 1 [sampleRow]).vessels
      sampleRow.vessel_imo =
      some ⟨1, sampleRow.vessel_imo, rowAttrs sampleRow⟩ :=
  (ownership_reassignment sampleDB 1 sampleRow
    ⟨7, .int 9289984, rowAttrs sampleRow⟩ "Neptune Navigators"
    "Neptune Navigators"
    (by simp [sampleDB, find_vessel_by_imo, sampleRow, List.find?])
    (by simp [sampleDB, get_company_name, sampleCompany, List.find?])
    (by decide) (by decide) rfl).1 rfl

/-! ## C7 — per-unit commit atomicity -/

/-- C7 (code behaviour at the failing input): re-scraping a company that
already exists takes `insert_company_details`' update branch, whose trace
holds zero commits — the `return` at line 319 leaves the function before
the commit at line 338 (only the insert branch, run here on the empty
store, commits exactly once).  The company UPDATE therefore stays pending:
it does change the store when applied, yet after a following vessel batch
whose first row's write fails, the rollback reverts it too and the
committed store is exactly the original one — the company update is lost
rather than remaining intact as a previously committed unit. -/
theorem company_update_not_committed :
    commitCount (insert_company_details_ops sampleDB rescrapeInfo) = 0 ∧
    commitCount (insert_company_details_ops emptyDB rescrapeInfo) = 1 ∧
    (insert_company_details sampleDB rescrapeInfo).1 ≠ sampleDB ∧
    (runTx (runTx ⟨sampleDB, sampleDB⟩ (insert_company_details_ops sampleDB rescrapeInfo))
        (insert_fleet_vessels_ops 1 [(sampleRow, true)])).committed = sampleDB := by
  refine ⟨by decide, by decide, by decide, by decide⟩


/-! ## C6 — upsert idempotence

The analysis proceeds through a decomposition of the vessel loop: a batch
acts pointwise (`rowApply`) on the rows already stored and appends the
`newTail` of freshly inserted vessels; re-running the identical batch
performs no inserts and its pointwise action is idempotent. -/

theorem applyMs_cons (cid : Int) (cname : Option String) (m : FleetRow)
    (ms : List FleetRow) (v : Vessel) :
    applyMs cid cname (m :: ms) v = applyMs cid cname ms (updOne cid cname m v) := rfl

theorem rowApply_cons (cid : Int) (cname : Option String) (r : FleetRow)
    (rs : List FleetRow) (v : Vessel) :
    rowApply cid cname (r :: rs) v = rowApply cid cname rs (step1 cid cname r v) := rfl

theorem step1_vessel_imo (cid : Int) (cname : Option String) (r : FleetRow)
    (v : Vessel) : (step1 cid cname r v).vessel_imo = v.vessel_imo := by
  unfold step1
  split
  · exact updOne_vessel_imo cid cname r v
  · rfl

theorem rowApply_vessel_imo (cid : Int) (cname : Option String)
    (rows : List FleetRow) (v : Vessel) :
    (rowApply cid cname rows v).vessel_imo = v.vessel_imo := by
  induction rows generalizing v with
  | nil => rfl
  | cons r rs ih => rw [rowApply_cons, ih, step1_vessel_imo]

theorem applyMs_vessel_imo (cid : Int) (cname : Option String)
    (ms : List FleetRow) (v : Vessel) :
    (applyMs cid cname ms v).vessel_imo = v.vessel_imo := by
  induction ms generalizing v with
  | nil => rfl
  | cons m ms ih => rw [applyMs_cons, ih, updOne_vessel_imo]

theorem updOne_company (cid : Int) (cname : Option String) (r : FleetRow)
    (v : Vessel) : (updOne cid cname r v).company_id =
      if ownerMatch cname r = true then cid else v.company_id := by
  unfold updOne
  split <;> simp_all

theorem updOne_attrs (cid : Int) (cname : Option String) (r : FleetRow)
    (v : Vessel) : (updOne cid cname r v).attrs = rowAttrs r := by
  unfold updOne
  split <;> rfl

theorem applyMs_company (cid : Int) (cname : Option String) (ms : List FleetRow)
    (v : Vessel) : (applyMs cid cname ms v).company_id =
      if ms.any (fun r => ownerMatch cname r) = true then cid else v.company_id := by
  induction ms generalizing v with
  | nil => simp [applyMs]
  | cons m ms ih =>
    rw [applyMs_cons, ih, updOne_company]
    by_cases hm : ownerMatch cname m = true <;> simp [hm, List.any_cons]

theorem applyMs_attrs (cid : Int) (cname : Option String) (ms : List FleetRow)
    (v : Vessel) : (applyMs cid cname ms v).attrs =
      (match ms.getLast? with
       | none => v.attrs
       | some m => rowAttrs m) := by
  induction ms generalizing v with
  | nil => rfl
  | cons m ms ih =>
    rw [applyMs_cons, ih]
    cases ms with
    | nil => simp [updOne_attrs]
    | cons m2 ms2 =>
      rw [List.getLast?_cons_cons]
      cases hl : (m2 :: ms2).getLast? with
      | none => simp at hl
      | some x => rfl

theorem applyMs_idem (cid : Int) (cname : Option String) (ms : List FleetRow)
    (v : Vessel) :
    applyMs cid cname ms (applyMs cid cname ms v) = applyMs cid cname ms v := by
  apply Vessel.ext
  · rw [applyMs_company, applyMs_company]
    by_cases h : ms.any (fun r => ownerMatch cname r) = true <;> simp [h]
  · rw [applyMs_vessel_imo]
  · rw [applyMs_attrs, applyMs_attrs]
    cases hl : ms.getLast? with
    | none =>
      have hms : ms = [] := by simpa using hl
      subst hms
      rfl
    | some x => rfl

theorem rowApply_eq_applyMs (cid : Int) (cname : Option String)
    (rows : List FleetRow) (v : Vessel) :
    rowApply cid cname rows v =
      applyMs cid cname (rows.filter (fun r => isRowFor v.vessel_imo r)) v := by
  induction rows generalizing v with
  | nil => rfl
  | cons r rs ih =>
    rw [rowApply_cons]
    by_cases h : isRowFor v.vessel_imo r = true
    · have hstep : step1 cid cname r v = updOne cid cname r v := by
        simp [step1, h]
      rw [hstep, ih, updOne_vessel_imo]
      simp [List.filter_cons, h, applyMs_cons]
    · have hstep : step1 cid cname r v = v := by
        simp [step1, h]
      rw [hstep, ih]
      simp [List.filter_cons, h]

theorem rowApply_idem (cid : Int) (cname : Option String) (rows : List FleetRow)
    (v : Vessel) :
    rowApply cid cname rows (rowApply cid cname rows v) = rowApply cid cname rows v := by
  rw [rowApply_eq_applyMs cid cname rows (rowApply cid cname rows v),
    rowApply_vessel_imo, rowApply_eq_applyMs cid cname rows v]
  exact applyMs_idem cid cname _ v

theorem imo_mem_iff (s : List Vessel) (i : PVal) :
    (find_vessel_by_imo s i).isSome = true ↔ i ∈ imoList s := by
  simp only [find_vessel_by_imo, imoList, List.find?_isSome, List.mem_map,
    decide_eq_true_eq]

theorem imoList_map (s : List Vessel) (g : Vessel → Vessel)
    (hg : ∀ v, (g v).vessel_imo = v.vessel_imo) :
    imoList (s.map g) = imoList s := by
  unfold imoList
  rw [List.map_map]
  exact List.map_congr_left (fun v _ => by simp [Function.comp, hg])

theorem process_of_falsy (cid : Int) (cname : Option String) (s : List Vessel)
    (r : FleetRow) (h : pyTruthy r.vessel_imo = false) :
    processVesselRow cid cname s r = s := by
  simp [processVesselRow, h]

theorem process_of_mem (cid : Int) (cname : Option String) (s : List Vessel)
    (r : FleetRow) (h1 : pyTruthy r.vessel_imo = true)
    (h2 : r.vessel_imo ∈ imoList s) :
    processVesselRow cid cname s r = s.map (step1 cid cname r) := by
  have hsome : (find_vessel_by_imo s r.vessel_imo).isSome = true :=
    (imo_mem_iff _ _).mpr h2
  simp only [processVesselRow, h1, if_true, hsome]
  apply List.map_congr_left
  intro v _
  by_cases hv : v.vessel_imo = r.vessel_imo
  · simp [step1, isRowFor, h1, hv]
  · have hv2 : ¬(r.vessel_imo = v.vessel_imo) := fun he => hv he.symm
    simp [step1, isRowFor, h1, hv, hv2]

theorem process_of_not_mem (cid : Int) (cname : Option String) (s : List Vessel)
    (r : FleetRow) (h1 : pyTruthy r.vessel_imo = true)
    (h2 : r.vessel_imo ∉ imoList s) :
    processVesselRow cid cname s r = s ++ [mkVessel cid r] := by
  have hsome : (find_vessel_by_imo s r.vessel_imo).isSome = false := by
    by_cases hh : (find_vessel_by_imo s r.vessel_imo).isSome = true
    · exact absurd ((imo_mem_iff _ _).mp hh) h2
    · simpa using hh
  simp [processVesselRow, h1, hsome]

theorem newTail_congr (cid : Int) (cname : Option String) (rows : List FleetRow) :
    ∀ E E' : List PVal, (∀ i, i ∈ E ↔ i ∈ E') →
      newTail cid cname rows E = newTail cid cname rows E' := by
  induction rows with
  | nil => intro E E' _; rfl
  | cons r rs ih =>
    intro E E' h
    by_cases htr : pyTruthy r.vessel_imo = true
    · by_cases hm : r.vessel_imo ∈ E
      · have hm' : r.vessel_imo ∈ E' := (h _).mp hm
        simp [newTail, htr, hm, hm', ih E E' h]
      · have hm' : r.vessel_imo ∉ E' := fun hx => hm ((h _).mpr hx)
        have h2 : ∀ i, i ∈ r.vessel_imo :: E ↔ i ∈ r.vessel_imo :: E' := by
          intro i
          simp [List.mem_cons, h i]
        simp [newTail, htr, hm, hm', ih _ _ h2]
    · simp [newTail, htr, ih E E' h]

theorem fold_decomp (cid : Int) (cname : Option String) :
    ∀ (rows : List FleetRow) (s : List Vessel),
      insert_fleet_vessels_rows cid cname rows s =
        s.map (rowApply cid cname rows) ++ newTail cid cname rows (imoList s) := by
  intro rows
  induction rows with
  | nil =>
    intro s
    have hid : rowApply cid cname ([] : List FleetRow) = fun v => v :=
      funext fun v => rfl
    simp [insert_fleet_vessels_rows, newTail, hid]
  | cons r rs ih =>
    intro s
    have hfold : insert_fleet_vessels_rows cid cname (r :: rs) s =
        insert_fleet_vessels_rows cid cname rs (processVesselRow cid cname s r) := rfl
    by_cases h1 : pyTruthy r.vessel_imo = true
    · by_cases h2 : r.vessel_imo ∈ imoList s
      · rw [hfold, process_of_mem cid cname s r h1 h2, ih,
          imoList_map s _ (step1_vessel_imo cid cname r), List.map_map]
        have hcomp : rowApply cid cname rs ∘ step1 cid cname r =
            rowApply cid cname (r :: rs) := funext fun v => rfl
        rw [hcomp]
        have hnt : newTail cid cname (r :: rs) (imoList s) =
            newTail cid cname rs (imoList s) := by
          simp [newTail, h1, h2]
        rw [hnt]
      · rw [hfold, process_of_not_mem cid cname s r h1 h2, ih, List.map_append]
        have himoapp : imoList (s ++ [mkVessel cid r]) = imoList s ++ [r.vessel_imo] := by
          simp [imoList, mkVessel]
        rw [himoapp]
        have hcong : newTail cid cname rs (imoList s ++ [r.vessel_imo]) =
            newTail cid cname rs (r.vessel_imo :: imoList s) := by
          apply newTail_congr
          intro i
          simp [List.mem_append, List.mem_cons, or_comm]
        rw [hcong]
        have hmapr : s.map (rowApply cid cname rs) =
            s.map (rowApply cid cname (r :: rs)) := by
          apply List.map_congr_left
          intro v hv
          have hne : v.vessel_imo ≠ r.vessel_imo := by
            intro he
            apply h2
            rw [← he]
            exact List.mem_map.mpr ⟨v, hv, rfl⟩
          have h3 : ¬(r.vessel_imo = v.vessel_imo) := fun he => hne he.symm
          have hstep : step1 cid cname r v = v := by
            simp [step1, isRowFor, h1, h3]
          rw [rowApply_cons, hstep]
        rw [hmapr]
        have hnt : newTail cid cname (r :: rs) (imoList s) =
            rowApply cid cname rs (mkVessel cid r) ::
              newTail cid cname rs (r.vessel_imo :: imoList s) := by
          simp [newTail, h1, h2]
        rw [hnt, List.map_cons]
        rw [List.append_assoc]
        rfl
    · have h1f : pyTruthy r.vessel_imo = false := by simpa using h1
      rw [hfold, process_of_falsy cid cname s r h1f, ih]
      have hmapr : s.map (rowApply cid cname rs) =
          s.map (rowApply cid cname (r :: rs)) := by
        apply List.map_congr_left
        intro v _
        have hstep : step1 cid cname r v = v := by
          simp [step1, isRowFor, h1f]
        rw [rowApply_cons, hstep]
      have hnt : newTail cid cname (r :: rs) (imoList s) =
          newTail cid cname rs (imoList s) := by
        simp [newTail, h1f]
      rw [hmapr, hnt]

theorem imoList_mem_process (cid : Int) (cname : Option String) (s : List Vessel)
    (r' : FleetRow) (i : PVal) (h : i ∈ imoList s) :
    i ∈ imoList (processVesselRow cid cname s r') := by
  by_cases h1 : pyTruthy r'.vessel_imo = true
  · by_cases h2 : r'.vessel_imo ∈ imoList s
    · rw [process_of_mem cid cname s r' h1 h2,
        imoList_map s _ (step1_vessel_imo cid cname r')]
      exact h
    · rw [process_of_not_mem cid cname s r' h1 h2]
      have : imoList (s ++ [mkVessel cid r']) = imoList s ++ [r'.vessel_imo] := by
        simp [imoList, mkVessel]
      rw [this]
      exact List.mem_append_left _ h
  · have h1f : pyTruthy r'.vessel_imo = false := by simpa using h1
    rw [process_of_falsy cid cname s r' h1f]
    exact h

theorem imoList_mem_fold (cid : Int) (cname : Option String) :
    ∀ (rows : List FleetRow) (s : List Vessel) (i : PVal), i ∈ imoList s →
      i ∈ imoList (insert_fleet_vessels_rows cid cname rows s) := by
  intro rows
  induction rows with
  | nil => intro s i h; exact h
  | cons r' rs ih =>
    intro s i h
    exact ih _ i (imoList_mem_process cid cname s r' i h)

theorem row_imo_mem_fold (cid : Int) (cname : Option String) :
    ∀ (rows : List FleetRow) (s : List Vessel) (r : FleetRow), r ∈ rows →
      pyTruthy r.vessel_imo = true →
      r.vessel_imo ∈ imoList (insert_fleet_vessels_rows cid cname rows s) := by
  intro rows
  induction rows with
  | nil =>
    intro s r h
    cases h
  | cons r' rs ih =>
    intro s r hr htr
    rcases List.mem_cons.mp hr with he | hm
    · subst he
      show r.vessel_imo ∈
        imoList (insert_fleet_vessels_rows cid cname rs (processVesselRow cid cname s r))
      apply imoList_mem_fold
      by_cases h2 : r.vessel_imo ∈ imoList s
      · rw [process_of_mem cid cname s r htr h2,
          imoList_map s _ (step1_vessel_imo cid cname r)]
        exact h2
      · rw [process_of_not_mem cid cname s r htr h2]
        simp [imoList, mkVessel]
    · exact ih _ r hm htr

theorem newTail_nil_of_covered (cid : Int) (cname : Option String) :
    ∀ (rows : List FleetRow) (E : List PVal),
      (∀ r ∈ rows, pyTruthy r.vessel_imo = true → r.vessel_imo ∈ E) →
      newTail cid cname rows E = [] := by
  intro rows
  induction rows with
  | nil => intro E _; rfl
  | cons r rs ih =>
    intro E h
    by_cases htr : pyTruthy r.vessel_imo = true
    · have hm : r.vessel_imo ∈ E := h r (List.mem_cons_self _ _) htr
      simp only [newTail, htr, if_true, hm]
      exact ih E (fun q hq hqt => h q (List.mem_cons_of_mem _ hq) hqt)
    · simp only [newTail, htr, Bool.false_eq_true, if_false]
      exact ih E (fun q hq hqt => h q (List.mem_cons_of_mem _ hq) hqt)

theorem newTail_mem (cid : Int) (cname : Option String) :
    ∀ (rows : List FleetRow) (E : List PVal) (w : Vessel),
      w ∈ newTail cid cname rows E →
      pyTruthy w.vessel_imo = true ∧ w.vessel_imo ∉ E := by
  intro rows
  induction rows with
  | nil =>
    intro E w h
    cases h
  | cons r rs ih =>
    intro E w h
    by_cases htr : pyTruthy r.vessel_imo = true
    · by_cases hm : r.vessel_imo ∈ E
      · rw [show newTail cid cname (r :: rs) E = newTail cid cname rs E from by
          simp [newTail, htr, hm]] at h
        exact ih E w h
      · rw [show newTail cid cname (r :: rs) E =
            rowApply cid cname rs (mkVessel cid r) ::
              newTail cid cname rs (r.vessel_imo :: E) from by
          simp [newTail, htr, hm]] at h
        rcases List.mem_cons.mp h with he | hm2
        · subst he
          have himo : (rowApply cid cname rs (mkVessel cid r)).vessel_imo =
              r.vessel_imo := by
            rw [rowApply_vessel_imo]
            rfl
          rw [himo]
          exact ⟨htr, hm⟩
        · have h3 := ih _ w hm2
          exact ⟨h3.1, fun hx => h3.2 (List.mem_cons_of_mem _ hx)⟩
    · rw [show newTail cid cname (r :: rs) E = newTail cid cname rs E from by
        simp [newTail, htr]] at h
      exact ih E w h

theorem head_fix (cid : Int) (cname : Option String) (r : FleetRow)
    (F : List FleetRow) :
    applyMs cid cname F
        (updOne cid cname r (applyMs cid cname F (mkVessel cid r))) =
      applyMs cid cname F (mkVessel cid r) := by
  have hmkc : (mkVessel cid r).company_id = cid := rfl
  have hu : (applyMs cid cname F (mkVessel cid r)).company_id = cid := by
    rw [applyMs_company, hmkc]
    by_cases h : F.any (fun x => ownerMatch cname x) = true <;> simp [h]
  apply Vessel.ext
  · rw [applyMs_company, applyMs_company, updOne_company, hu, hmkc]
    by_cases h : ownerMatch cname r = true <;> simp [h]
  · rw [applyMs_vessel_imo, applyMs_vessel_imo, updOne_vessel_imo, applyMs_vessel_imo]
  · rw [applyMs_attrs, applyMs_attrs]
    cases hF : F.getLast? with
    | none =>
      rw [updOne_attrs]
      rfl
    | some m => rfl

theorem newTail_map_fix (cid : Int) (cname : Option String) :
    ∀ (rows : List FleetRow) (E : List PVal),
      (newTail cid cname rows E).map (rowApply cid cname rows) =
        newTail cid cname rows E := by
  intro rows
  induction rows with
  | nil => intro E; rfl
  | cons r rs ih =>
    intro E
    by_cases htr : pyTruthy r.vessel_imo = true
    · by_cases hm : r.vessel_imo ∈ E
      · rw [show newTail cid cname (r :: rs) E = newTail cid cname rs E from by
          simp [newTail, htr, hm]]
        have hmap : (newTail cid cname rs E).map (rowApply cid cname (r :: rs)) =
            (newTail cid cname rs E).map (rowApply cid cname rs) := by
          apply List.map_congr_left
          intro w hw
          obtain ⟨hwt, hwE⟩ := newTail_mem cid cname rs E w hw
          have h3 : ¬(r.vessel_imo = w.vessel_imo) := by
            intro he
            exact hwE (he ▸ hm)
          have hstep : step1 cid cname r w = w := by
            simp [step1, isRowFor, h3]
          rw [rowApply_cons, hstep]
        rw [hmap, ih E]
      · rw [show newTail cid cname (r :: rs) E =
            rowApply cid cname rs (mkVessel cid r) ::
              newTail cid cname rs (r.vessel_imo :: E) from by
          simp [newTail, htr, hm]]
        rw [List.map_cons]
        have hhead : rowApply cid cname (r :: rs)
            (rowApply cid cname rs (mkVessel cid r)) =
            rowApply cid cname rs (mkVessel cid r) := by
          rw [rowApply_cons]
          have hw0imo : (rowApply cid cname rs (mkVessel cid r)).vessel_imo =
              r.vessel_imo := by
            rw [rowApply_vessel_imo]
            rfl
          have hstep : step1 cid cname r (rowApply cid cname rs (mkVessel cid r)) =
              updOne cid cname r (rowApply cid cname rs (mkVessel cid r)) := by
            simp [step1, isRowFor, htr, hw0imo]
          rw [hstep]
          rw [rowApply_eq_applyMs cid cname rs
            (updOne cid cname r (rowApply cid cname rs (mkVessel cid r)))]
          rw [updOne_vessel_imo, rowApply_vessel_imo]
          rw [rowApply_eq_applyMs cid cname rs (mkVessel cid r)]
          exact head_fix cid cname r _
        have htail : (newTail cid cname rs (r.vessel_imo :: E)).map
            (rowApply cid cname (r :: rs)) =
            newTail cid cname rs (r.vessel_imo :: E) := by
          have hmap : (newTail cid cname rs (r.vessel_imo :: E)).map
              (rowApply cid cname (r :: rs)) =
              (newTail cid cname rs (r.vessel_imo :: E)).map (rowApply cid cname rs) := by
            apply List.map_congr_left
            intro w hw
            obtain ⟨hwt, hwE⟩ := newTail_mem cid cname rs _ w hw
            have h3 : ¬(r.vessel_imo = w.vessel_imo) := by
              intro he
              exact hwE (by rw [← he]; exact List.mem_cons_self _ _)
            have hstep : step1 cid cname r w = w := by
              simp [step1, isRowFor, h3]
            rw [rowApply_cons, hstep]
          rw [hmap, ih _]
        rw [hhead, htail]
    · have htf : pyTruthy r.vessel_imo = false := by simpa using htr
      rw [show newTail cid cname (r :: rs) E = newTail cid cname rs E from by
        simp [newTail, htf]]
      have hmap : (newTail cid cname rs E).map (rowApply cid cname (r :: rs)) =
          (newTail cid cname rs E).map (rowApply cid cname rs) := by
        apply List.map_congr_left
        intro w _
        have hstep : step1 cid cname r w = w := by
          simp [step1, isRowFor, htf]
        rw [rowApply_cons, hstep]
      rw [hmap, ih E]

theorem insert_fleet_vessels_rows_idem (cid : Int) (cname : Option String)
    (rows : List FleetRow) (s : List Vessel) :
    insert_fleet_vessels_rows cid cname rows
        (insert_fleet_vessels_rows cid cname rows s) =
      insert_fleet_vessels_rows cid cname rows s := by
  have hcov : ∀ r ∈ rows, pyTruthy r.vessel_imo = true →
      r.vessel_imo ∈ imoList (insert_fleet_vessels_rows cid cname rows s) :=
    fun r hr htr => row_imo_mem_fold cid cname rows s r hr htr
  rw [fold_decomp cid cname rows (insert_fleet_vessels_rows cid cname rows s),
    newTail_nil_of_covered cid cname rows _ hcov, List.append_nil]
  conv_lhs => rw [fold_decomp cid cname rows s]
  conv_rhs => rw [fold_decomp cid cname rows s]
  rw [List.map_append, List.map_map]
  have hcomp : rowApply cid cname rows ∘ rowApply cid cname rows =
      rowApply cid cname rows :=
    funext fun v => rowApply_idem cid cname rows v
  rw [hcomp, newTail_map_fix]

/-- C6: applying `insert_fleet_vessels` twice with the identical batch
under the same company yields the same stored state as applying it once —
no duplicate vessel rows appear and no field's value drifts between the
first and second application. -/
theorem upsert_vessels_idempotent (db : DB) (cid : Int) (rows : List FleetRow) :
    insert_fleet_vessels (insert_fleet_vessels db cid rows) cid rows =
      insert_fleet_vessels db cid rows := by
  apply DB.ext
  · rfl
  · rfl
  · show insert_fleet_vessels_rows cid
        (get_company_name (insert_fleet_vessels db cid rows) cid) rows
        (insert_fleet_vessels_rows cid (get_company_name db cid) rows db.vessels) =
      insert_fleet_vessels_rows cid (get_company_name db cid) rows db.vessels
    have hname : get_company_name (insert_fleet_vessels db cid rows) cid =
        get_company_name db cid := rfl
    rw [hname]
    exact insert_fleet_vessels_rows_idem cid (get_company_name db cid) rows db.vessels

end MagicPort
